import Mathlib

/-
Verification of the event-broadcasting subsystem of the fast-api-books
repository. The definitions below are a shallow embedding of:
  app/events/manager.py        (DateTimeEncoder, SSEManager)
  app/controllers/sseController.py  (stream_updates / event_generator)
  app/controllers/bookController.py (create/get/update/delete book)
Python dicts that are JSON-dumped are modelled as ordered association
lists (Python 3.7+ dicts preserve insertion order, and json.dumps emits
keys in that order), machine-level scalars as an inductive value type,
and exceptions as Except.
-/

/-- Scalar values that can appear in a book-data snapshot dict handed to
SSEManager.broadcast: strings, ints, bools, None, datetime.date,
datetime.datetime, and values of some other type that json.dumps cannot
encode (the DateTimeEncoder raises TypeError on those). -/
inductive PyVal where
  | pstr (s : String)
  | pint (n : Int)
  | pbool (b : Bool)
  | pnone
  | pdate (y m d : Nat)
  | pdatetime (y mo d hh mi ss : Nat)
  | unsupported (typeName : String)
deriving DecidableEq, Repr

/-- Zero-pad a numeral to two digits, as Python's date.isoformat does. -/
def pad2 (n : Nat) : String :=
  if n < 10 then "0" ++ toString n else toString n

/-- Zero-pad a year to four digits, as Python's date.isoformat does. -/
def pad4 (n : Nat) : String :=
  if n < 10 then "000" ++ toString n
  else if n < 100 then "00" ++ toString n
  else if n < 1000 then "0" ++ toString n
  else toString n

/-- Python date.isoformat(): YYYY-MM-DD. -/
def date_isoformat (y m d : Nat) : String :=
  pad4 y ++ "-" ++ pad2 m ++ "-" ++ pad2 d

/-- Python datetime.isoformat() for whole-second datetimes:
YYYY-MM-DDTHH:MM:SS. -/
def datetime_isoformat (y mo d hh mi ss : Nat) : String :=
  date_isoformat y mo d ++ "T" ++ pad2 hh ++ ":" ++ pad2 mi ++ ":" ++ pad2 ss

/-- The per-value conversion performed inside SSEManager.serialize_book_data
(manager.py lines 101-105): isinstance(value, (date, datetime)) values are
replaced by value.isoformat(); every other value is kept as is. -/
def serializeVal : PyVal → PyVal
  | .pdate y m d => .pstr (date_isoformat y m d)
  | .pdatetime y mo d hh mi ss => .pstr (datetime_isoformat y mo d hh mi ss)
  | v => v

/-- SSEManager.serialize_book_data (manager.py lines 81-107): Python's
truthiness test `if book_data:` sends both None and the empty dict to
the `return None` branch; otherwise each value is converted by the
date/datetime rule and the key order is preserved. -/
def serialize_book_data : Option (List (String × PyVal)) → Option (List (String × PyVal))
  | none => none
  | some bd =>
      if bd.isEmpty then none
      else some (bd.map fun kv => (kv.1, serializeVal kv.2))

/-- JSON scalar values, the possible values inside the (flat) book_data
object of an encoded event. -/
inductive JScalar where
  | jsnull
  | jsstr (s : String)
  | jsint (n : Int)
  | jsbool (b : Bool)
deriving DecidableEq, Repr

/-- JSON values appearing at the top level of an encoded event body:
scalars, or the one-level-deep book_data object. -/
inductive JVal where
  | jnull
  | jstr (s : String)
  | jint (n : Int)
  | jbool (b : Bool)
  | jobj (fields : List (String × JScalar))
deriving DecidableEq, Repr

/-- json.dumps with cls=DateTimeEncoder on one scalar value: date and
datetime go through DateTimeEncoder.default (isoformat), the standard
scalars encode directly, and any other type makes json.dumps raise
TypeError (modelled as the error case). -/
def encodeScalar : PyVal → Except String JScalar
  | .pstr s => .ok (.jsstr s)
  | .pint n => .ok (.jsint n)
  | .pbool b => .ok (.jsbool b)
  | .pnone => .ok .jsnull
  | .pdate y m d => .ok (.jsstr (date_isoformat y m d))
  | .pdatetime y mo d hh mi ss => .ok (.jsstr (datetime_isoformat y mo d hh mi ss))
  | .unsupported t => .error ("Object of type " ++ t ++ " is not JSON serializable")

/-- json.dumps iterating over the entries of a dict in order; the first
value of an unsupported type aborts the dump. -/
def encodeFields : List (String × PyVal) → Except String (List (String × JScalar))
  | [] => .ok []
  | kv :: tl => do
      let v ← encodeScalar kv.2
      let rest ← encodeFields tl
      pure ((kv.1, v) :: rest)

/-- Encoding of the book_data member of the event body: null when the
serialized snapshot is None, otherwise a JSON object with each value
encoded; an unsupported value aborts json.dumps. -/
def encodeBookData : Option (List (String × PyVal)) → Except String JVal
  | none => .ok .jnull
  | some fields => do
      let fs ← encodeFields fields
      pure (.jobj fs)

/-- One item of an SSE stream as built by manager.py / sseController.py:
a dict with an "event" name and a "data" JSON document (held here in
decoded form as its ordered field list). -/
structure SSEEvent where
  event : String
  data : List (String × JVal)
deriving DecidableEq, Repr

/-- Field lookup in an encoded JSON object body; none means the key is
absent from the document (distinct from being present with value null). -/
def jlookup (fields : List (String × JVal)) (k : String) : Option JVal :=
  (fields.find? fun kv => kv.1 == k).map Prod.snd

/-- State of the SSEManager: the `_clients` list of per-client queues,
in registration order. A queue is modelled by an identity (asyncio.Queue
objects compare by identity, which `in`/`remove` use) together with its
FIFO contents, oldest first. `nextId` is the supply of fresh identities:
each asyncio.Queue() call yields an object distinct from all live ones. -/
structure SSEManager where
  clients : List (Nat × List SSEEvent)
  nextId : Nat
deriving DecidableEq, Repr

/-- SSEManager.__init__: empty client list. -/
def initManager : SSEManager := ⟨[], 0⟩

/-- The registered queue identities, in registration order. -/
def ids (m : SSEManager) : List Nat := m.clients.map Prod.fst

/-- Contents of the queue registered under identity q ([] if absent). -/
def getQueue (m : SSEManager) (q : Nat) : List SSEEvent :=
  match m.clients.find? (fun c => c.1 == q) with
  | some c => c.2
  | none => []

/-- SSEManager.connect (manager.py lines 50-65): create a fresh queue,
append it to the client list, and return it. -/
def SSEManager.connect (m : SSEManager) : SSEManager × Nat :=
  ({ clients := m.clients ++ [(m.nextId, [])], nextId := m.nextId + 1 }, m.nextId)

/-- list.remove semantics guarded by `in` (manager.py lines 78-79):
drop the first element whose identity is q; no-op when q is absent. -/
def eraseClient : List (Nat × List SSEEvent) → Nat → List (Nat × List SSEEvent)
  | [], _ => []
  | c :: cs, q => if c.1 = q then cs else c :: eraseClient cs q

/-- SSEManager.disconnect (manager.py lines 67-79). -/
def SSEManager.disconnect (m : SSEManager) (q : Nat) : SSEManager :=
  { m with clients := eraseClient m.clients q }

/-- Construction of the broadcast event (manager.py lines 142-153): the
snapshot is passed through serialize_book_data, then the five-field body
is JSON-dumped with DateTimeEncoder. `ts` stands for the wall-clock
datetime.now().isoformat() string. -/
def mkEnvelope (ts event_type message : String) (book_id : Option Int)
    (book_data : Option (List (String × PyVal))) : Except String SSEEvent :=
  match encodeBookData (serialize_book_data book_data) with
  | .error e => .error e
  | .ok bd =>
      .ok ⟨"bookOperation",
        [("timestamp", .jstr ts),
         ("type", .jstr event_type),
         ("message", .jstr message),
         ("book_id", match book_id with | none => .jnull | some n => .jint n),
         ("book_data", bd)]⟩

/-- SSEManager.broadcast (manager.py lines 109-156): return immediately
when `_clients` is empty; otherwise build the event once and put it on
every registered queue. The result carries the new state and the event
that was constructed (none on the empty-registry short-circuit); a
json.dumps TypeError propagates as the error case, before any enqueue. -/
def SSEManager.broadcast (m : SSEManager) (ts event_type message : String)
    (book_id : Option Int) (book_data : Option (List (String × PyVal))) :
    Except String (SSEManager × Option SSEEvent) :=
  if m.clients = [] then .ok (m, none)
  else
    match mkEnvelope ts event_type message book_id book_data with
    | .error e => .error e
    | .ok ev =>
        .ok ({ m with clients := m.clients.map fun c => (c.1, c.2 ++ [ev]) }, some ev)

/-- The initial connection event yielded by event_generator
(sseController.py lines 63-72): its json.dumps body has exactly the
three keys timestamp, type, message, in that order. -/
def initialEvent (ts : String) : SSEEvent :=
  ⟨"bookOperation",
   [("timestamp", .jstr ts),
    ("type", .jstr "connection"),
    ("message", .jstr "SSE connection established")]⟩

/-- Denotation of the yields of event_generator (sseController.py lines
61-78): the initial connection event, then, one per loop iteration, each
item taken from the client queue; `queued` is the sequence of items the
queue delivers before the next `await client_queue.get()` blocks. -/
def sessionEmits (ts : String) (queued : List SSEEvent) : List SSEEvent :=
  initialEvent ts :: queued

/-- The ways the event_generator loop can be exited (sseController.py
lines 80-85): asyncio.CancelledError on client disconnect or transport
closure, or an unrecoverable error thrown out of the loop body. -/
inductive ExitCause where
  | cancelled
  | transportClosed
  | unrecoverableError
deriving DecidableEq, Repr

/-- The `finally:` block of event_generator (sseController.py lines
83-85) runs event_manager.disconnect(client_queue) on every exit path,
whatever the cause of exit. -/
def event_generator_cleanup (_c : ExitCause) (m : SSEManager) (q : Nat) : SSEManager :=
  m.disconnect q

/-- One whole subscriber session after registration: the emitted items
(initial event then the delivered queue items), and the manager state
after the exit path's cleanup ran. -/
def event_generator_run (ts : String) (delivered : List SSEEvent) (cause : ExitCause)
    (m : SSEManager) (q : Nat) : List SSEEvent × SSEManager :=
  (sessionEmits ts delivered, event_generator_cleanup cause m q)

/-- Arguments of one broadcast call (the timestamp string stands for the
datetime.now() value read during that call). -/
structure BroadcastArgs where
  ts : String
  event_type : String
  message : String
  book_id : Option Int
  book_data : Option (List (String × PyVal))
deriving DecidableEq

/-- The operations that mutate the manager's registry. -/
inductive Op where
  | connect
  | disconnect (q : Nat)
  | broadcast (a : BroadcastArgs)
deriving DecidableEq

/-- Effect of one operation on the manager state; a broadcast whose
json.dumps raises leaves every queue untouched (the exception is thrown
before the enqueue loop runs). -/
def step (m : SSEManager) : Op → SSEManager
  | .connect => m.connect.1
  | .disconnect q => m.disconnect q
  | .broadcast a =>
      match m.broadcast a.ts a.event_type a.message a.book_id a.book_data with
      | .ok r => r.1
      | .error _ => m

/-- Run a sequence of operations from a state. -/
def runTrace (m : SSEManager) : List Op → SSEManager
  | [] => m
  | op :: ops => runTrace (step m op) ops

/-- The manager states the program can reach: the global event_manager
starts as SSEManager() and is only touched through connect, disconnect
and broadcast. -/
inductive Reachable : SSEManager → Prop where
  | init : Reachable initManager
  | step (m : SSEManager) (op : Op) : Reachable m → Reachable (step m op)

/-- A broadcast argument set whose snapshot json.dumps can encode
(no value of an unsupported type). -/
def goodArgs (a : BroadcastArgs) : Bool :=
  match a.book_data with
  | none => true
  | some fields => fields.all fun kv =>
      match kv.2 with
      | .unsupported _ => false
      | _ => true

/-- The events the broadcasts of a trace construct, in trace order
(broadcasts whose encoding raises construct none). -/
def envelopesOf (tr : List Op) : List SSEEvent :=
  tr.filterMap fun op =>
    match op with
    | .broadcast a => (mkEnvelope a.ts a.event_type a.message a.book_id a.book_data).toOption
    | _ => none

/-
Embedding of app/controllers/bookController.py. The database session is
modelled as a list of book rows plus an oracle saying which primitive
session operations raise SQLAlchemyError during the call; each
controller returns its result (or the raised application exception)
together with the ordered trace of commits, rollbacks and broadcast
calls it performed.
-/

/-- A persisted book row (models.py / schemas.Book): the BookBase fields
plus the database id. The published_date is a calendar date (y, m, d). -/
structure Book where
  id : Int
  title : String
  author : String
  published_date : Nat × Nat × Nat
  summary : String
  genre : String
deriving DecidableEq, Repr

/-- schemas.BookCreate: the client-supplied fields of a book. -/
structure BookCreate where
  title : String
  author : String
  published_date : Nat × Nat × Nat
  summary : String
  genre : String
deriving DecidableEq, Repr

/-- schemas.Book.from_orm(db_book).dict(): the snapshot dict handed to
broadcast, keys in pydantic field order (BookBase fields then id). -/
def bookToDict (b : Book) : List (String × PyVal) :=
  [("title", .pstr b.title),
   ("author", .pstr b.author),
   ("published_date", .pdate b.published_date.1 b.published_date.2.1 b.published_date.2.2),
   ("summary", .pstr b.summary),
   ("genre", .pstr b.genre),
   ("id", .pint b.id)]

/-- The observable actions of one controller call, in program order. -/
inductive DbAction where
  | commit
  | rollback
  | publish (event_type message : String) (book_id : Option Int)
      (book_data : Option (List (String × PyVal)))
deriving DecidableEq

/-- The exceptions a controller raises (exceptions.py):
BookException.DuplicateTitle, BookException.NotFound,
DatabaseException.ConnectionError. -/
inductive ApiError where
  | DuplicateTitle
  | NotFound
  | ConnectionError
deriving DecidableEq, Repr

/-- Which primitive SQLAlchemy session operations raise SQLAlchemyError
during this controller call. -/
structure DbOracle where
  queryFails : Bool
  commitFails : Bool
  refreshFails : Bool
deriving DecidableEq, Repr

/-- create_book (bookController.py lines 20-56). The except clause
catches SQLAlchemyError, rolls back and raises ConnectionError; the
DuplicateTitle raise is not a SQLAlchemyError so it propagates without
rollback. The broadcast runs only after db.commit() and db.refresh(). -/
def create_book (o : DbOracle) (db : List Book) (b : BookCreate) :
    Except ApiError (List Book × Book) × List DbAction :=
  if o.queryFails then (.error .ConnectionError, [.rollback])
  else
    match db.find? (fun x => x.title == b.title) with
    | some _ => (.error .DuplicateTitle, [])
    | none =>
        if o.commitFails then (.error .ConnectionError, [.rollback])
        else
          let nb : Book :=
            { id := (db.length : Int) + 1, title := b.title, author := b.author,
              published_date := b.published_date, summary := b.summary, genre := b.genre }
          let db2 := db ++ [nb]
          if o.refreshFails then (.error .ConnectionError, [.commit, .rollback])
          else
            (.ok (db2, nb),
             [.commit,
              .publish "bookCreated" "Book created successfully" (some nb.id)
                (some (bookToDict nb))])

/-- get_books (bookController.py lines 58-80): a collection read; no
commit, no rollback in the except clause, broadcast with no book_id or
book_data after a successful query. -/
def get_books (o : DbOracle) (db : List Book) (skip limit : Nat) :
    Except ApiError (List Book) × List DbAction :=
  if o.queryFails then (.error .ConnectionError, [])
  else
    (.ok ((db.drop skip).take limit),
     [.publish "booksRetrieved" "Books retrieved successfully" none none])

/-- get_book (bookController.py lines 82-112): single-record read; the
NotFound raise propagates uncaught, broadcast only on success. -/
def get_book (o : DbOracle) (db : List Book) (book_id : Int) :
    Except ApiError Book × List DbAction :=
  if o.queryFails then (.error .ConnectionError, [])
  else
    match db.find? (fun x => x.id == book_id) with
    | none => (.error .NotFound, [])
    | some bk =>
        (.ok bk,
         [.publish "bookRetrieved" "Book retrieved successfully" (some book_id)
           (some (bookToDict bk))])

/-- update_book (bookController.py lines 114-152): field update of an
existing row, committed before the broadcast. -/
def update_book (o : DbOracle) (db : List Book) (book_id : Int) (b : BookCreate) :
    Except ApiError (List Book × Book) × List DbAction :=
  if o.queryFails then (.error .ConnectionError, [.rollback])
  else
    match db.find? (fun x => x.id == book_id) with
    | none => (.error .NotFound, [])
    | some bk =>
        if o.commitFails then (.error .ConnectionError, [.rollback])
        else
          let nb : Book :=
            { id := bk.id, title := b.title, author := b.author,
              published_date := b.published_date, summary := b.summary, genre := b.genre }
          let db2 := db.map fun x => if x.id == book_id then nb else x
          if o.refreshFails then (.error .ConnectionError, [.commit, .rollback])
          else
            (.ok (db2, nb),
             [.commit,
              .publish "bookUpdated" "Book updated successfully" (some book_id)
                (some (bookToDict nb))])

/-- delete_book (bookController.py lines 154-184): row deletion
committed before the broadcast; the broadcast carries no snapshot. -/
def delete_book (o : DbOracle) (db : List Book) (book_id : Int) :
    Except ApiError (List Book × String) × List DbAction :=
  if o.queryFails then (.error .ConnectionError, [.rollback])
  else
    match db.find? (fun x => x.id == book_id) with
    | none => (.error .NotFound, [])
    | some _ =>
        if o.commitFails then (.error .ConnectionError, [.rollback])
        else
          (.ok (db.filter fun x => !(x.id == book_id), "Book deleted successfully"),
           [.commit,
            .publish "bookDeleted" "Book deleted successfully" (some book_id) none])

/-- True when the action is a broadcast call. -/
def isPublish : DbAction → Bool
  | .publish .. => true
  | _ => false

/-- True when the trace contains no broadcast call. -/
def noPublish (tr : List DbAction) : Bool := tr.all fun a => !isPublish a

/-- True when every publish in the trace is preceded by a commit; `seen`
records whether a commit has already occurred. -/
def publishesAfterCommit (seen : Bool) : List DbAction → Bool
  | [] => true
  | .commit :: tl => publishesAfterCommit true tl
  | .rollback :: tl => publishesAfterCommit seen tl
  | .publish .. :: tl => seen && publishesAfterCommit seen tl

/-- True when every broadcast of the trace has encodable arguments. -/
def goodTrace (tr : List Op) : Bool :=
  tr.all fun op =>
    match op with
    | Op.broadcast a => goodArgs a
    | _ => true

/-- True on a non-raising controller outcome. -/
def exceptOk {ε α : Type} : Except ε α → Bool
  | .ok _ => true
  | .error _ => false

/-
Helper lemmas about the registry.
-/

/-- Removing a client yields a sublist of the registry. -/
theorem eraseClient_sublist (l : List (Nat × List SSEEvent)) (q : Nat) :
    (eraseClient l q).Sublist l := by
  induction l with
  | nil => exact List.Sublist.refl _
  | cons c cs ih =>
      simp only [eraseClient]
      split
      · exact List.sublist_cons_self c cs
      · exact List.Sublist.cons₂ c ih

/-- Removing an absent client is a no-op. -/
theorem eraseClient_of_not_mem (l : List (Nat × List SSEEvent)) (q : Nat)
    (h : q ∉ l.map Prod.fst) : eraseClient l q = l := by
  induction l with
  | nil => rfl
  | cons c cs ih =>
      simp only [List.map_cons, List.mem_cons, not_or] at h
      simp only [eraseClient]
      rw [if_neg (fun hc => h.1 hc.symm), ih h.2]

/-- On a duplicate-free registry, removing a client makes it absent. -/
theorem not_mem_eraseClient_self (l : List (Nat × List SSEEvent)) (q : Nat)
    (hnd : (l.map Prod.fst).Nodup) : q ∉ (eraseClient l q).map Prod.fst := by
  induction l with
  | nil => simp [eraseClient]
  | cons c cs ih =>
      simp only [List.map_cons, List.nodup_cons] at hnd
      simp only [eraseClient]
      split
      · intro hmem
        rename_i hc
        exact hnd.1 (hc ▸ hmem)
      · intro hmem
        rename_i hc
        simp only [List.map_cons, List.mem_cons] at hmem
        rcases hmem with h1 | h1
        · exact hc h1.symm
        · exact ih hnd.2 h1

/-- find? for identity q ignores the removal of a different identity. -/
theorem find?_eraseClient_ne (l : List (Nat × List SSEEvent)) (q q2 : Nat) (h : q ≠ q2) :
    (eraseClient l q2).find? (fun c => c.1 == q) = l.find? (fun c => c.1 == q) := by
  induction l with
  | nil => rfl
  | cons c cs ih =>
      simp only [eraseClient]
      split
      · rename_i hc
        rw [List.find?_cons_of_neg]
        simp [hc, Ne.symm h]
      · by_cases hq : c.1 = q
        · rw [List.find?_cons_of_pos, List.find?_cons_of_pos] <;> simp [hq]
        · rw [List.find?_cons_of_neg, List.find?_cons_of_neg, ih] <;> simp [hq]

/-- A some result of find? survives appending on the right. -/
theorem find?_append_of_isSome {α : Type} (l l2 : List α) (p : α → Bool)
    (h : (l.find? p).isSome) : (l ++ l2).find? p = l.find? p := by
  induction l with
  | nil => simp at h
  | cons c cs ih =>
      by_cases hp : p c
      · simp [List.find?_cons_of_pos, hp]
      · rw [List.find?_cons_of_neg _ (by simp [hp])] at h
        simp only [List.cons_append]
        rw [List.find?_cons_of_neg _ (by simp [hp]),
            List.find?_cons_of_neg _ (by simp [hp])]
        exact ih h

/-- find? over the fst-preserving broadcast append commutes with it. -/
theorem find?_map_appendEvent (l : List (Nat × List SSEEvent)) (q : Nat) (ev : SSEEvent) :
    (l.map fun c => (c.1, c.2 ++ [ev])).find? (fun c => c.1 == q)
      = (l.find? (fun c => c.1 == q)).map fun c => (c.1, c.2 ++ [ev]) := by
  induction l with
  | nil => rfl
  | cons c cs ih =>
      by_cases hq : c.1 = q
      · simp only [List.map_cons]
        rw [List.find?_cons_of_pos _ (by simp [hq]), List.find?_cons_of_pos _ (by simp [hq])]
        rfl
      · simp only [List.map_cons]
        rw [List.find?_cons_of_neg _ (by simp [hq]), List.find?_cons_of_neg _ (by simp [hq])]
        exact ih

/-- Membership of an identity is equivalent to find? succeeding. -/
theorem mem_ids_iff_find? (m : SSEManager) (q : Nat) :
    q ∈ ids m ↔ (m.clients.find? (fun c => c.1 == q)).isSome := by
  rw [List.find?_isSome]
  constructor
  · intro h
    rcases List.mem_map.mp h with ⟨c, hc, hq⟩
    exact ⟨c, hc, by simp [hq]⟩
  · rintro ⟨c, hc, hq⟩
    exact List.mem_map.mpr ⟨c, hc, by simpa using hq⟩

/-- connect appends exactly the fresh identity to the identity list. -/
theorem ids_connect (m : SSEManager) : ids m.connect.1 = ids m ++ [m.nextId] := by
  simp [ids, SSEManager.connect]

/-- A successful broadcast either leaves the state alone (empty
registry) or appends one event to every queue. -/
theorem broadcast_ok_state (m : SSEManager) (ts et msg : String) (bid : Option Int)
    (bd : Option (List (String × PyVal))) (r : SSEManager × Option SSEEvent)
    (h : m.broadcast ts et msg bid bd = .ok r) :
    r.1 = m ∨ ∃ ev, r.1 = { m with clients := m.clients.map fun c => (c.1, c.2 ++ [ev]) } := by
  unfold SSEManager.broadcast at h
  split at h
  · exact Or.inl (by cases h; rfl)
  · split at h
    · cases h
    · exact Or.inr ⟨_, by cases h; rfl⟩

/-- Appending an event to every queue does not change the identities. -/
theorem ids_appendEvent (m : SSEManager) (ev : SSEEvent) :
    ids { m with clients := m.clients.map fun c => (c.1, c.2 ++ [ev]) } = ids m := by
  simp [ids, List.map_map, Function.comp_def]

/-- Registry sanity: identities are pairwise distinct and below the
fresh-identity supply. -/
def goodState (m : SSEManager) : Prop :=
  (ids m).Nodup ∧ ∀ i ∈ ids m, i < m.nextId

/-- Every operation preserves registry sanity. -/
theorem goodState_step (m : SSEManager) (op : Op) (h : goodState m) :
    goodState (step m op) := by
  obtain ⟨hnd, hlt⟩ := h
  cases op with
  | connect =>
      constructor
      · rw [step, ids_connect]
        refine List.Nodup.append hnd (List.nodup_singleton _) ?_
        intro a ha hb
        simp only [List.mem_singleton] at hb
        exact absurd (hlt a ha) (by simp [hb])
      · intro i hi
        rw [step, ids_connect] at hi
        rcases List.mem_append.mp hi with h1 | h1
        · exact Nat.lt_succ_of_lt (hlt i h1)
        · simp only [List.mem_singleton] at h1
          simp [step, SSEManager.connect, h1]
  | disconnect q =>
      have hsub : (ids (m.disconnect q)).Sublist (ids m) :=
        (eraseClient_sublist m.clients q).map Prod.fst
      exact ⟨hsub.nodup hnd, fun i hi => hlt i (hsub.subset hi)⟩
  | broadcast a =>
      rw [step]
      cases hb : m.broadcast a.ts a.event_type a.message a.book_id a.book_data with
      | error e => exact ⟨hnd, hlt⟩
      | ok r =>
          simp only []
          rcases broadcast_ok_state m _ _ _ _ _ r hb with h1 | ⟨ev, h1⟩
          · rw [h1]; exact ⟨hnd, hlt⟩
          · rw [h1]
            refine ⟨?_, ?_⟩
            · rw [ids_appendEvent]; exact hnd
            · intro i hi
              rw [ids_appendEvent] at hi
              exact hlt i hi

/-- Every reachable manager state is sane. -/
theorem reachable_goodState (m : SSEManager) (h : Reachable m) : goodState m := by
  induction h with
  | init => exact ⟨List.nodup_nil, by simp [initManager, ids]⟩
  | step m op _ ih => exact goodState_step m op ih

/-- A serialized supported value always encodes. -/
theorem encodeScalar_serializeVal_ok (v : PyVal)
    (h : (match v with | PyVal.unsupported _ => false | _ => true) = true) :
    ∃ j, encodeScalar (serializeVal v) = .ok j := by
  cases v <;> first
    | exact ⟨_, rfl⟩
    | simp at h

/-- A snapshot free of unsupported values encodes after serialization. -/
theorem encodeFields_serialize_ok (fields : List (String × PyVal))
    (h : (fields.all fun kv =>
      match kv.2 with | PyVal.unsupported _ => false | _ => true) = true) :
    ∃ fs, encodeFields (fields.map fun kv => (kv.1, serializeVal kv.2)) = .ok fs := by
  induction fields with
  | nil => exact ⟨[], rfl⟩
  | cons kv tl ih =>
      simp only [List.all_cons, Bool.and_eq_true] at h
      obtain ⟨j, hj⟩ := encodeScalar_serializeVal_ok kv.2 h.1
      obtain ⟨fs, hfs⟩ := ih h.2
      refine ⟨(kv.1, j) :: fs, ?_⟩
      simp only [encodeFields, List.map_cons, hj, hfs]
      rfl

/-- Good broadcast arguments always produce an envelope. -/
theorem mkEnvelope_ok_of_goodArgs (a : BroadcastArgs) (h : goodArgs a = true) :
    ∃ ev, mkEnvelope a.ts a.event_type a.message a.book_id a.book_data = .ok ev := by
  unfold goodArgs at h
  unfold mkEnvelope
  cases hbd : a.book_data with
  | none => exact ⟨_, rfl⟩
  | some fields =>
      rw [hbd] at h
      by_cases he : fields.isEmpty
      · simp [serialize_book_data, he, encodeBookData]
      · obtain ⟨fs, hfs⟩ := encodeFields_serialize_ok fields h
        simp [serialize_book_data, he, encodeBookData, hfs]

/-- broadcast on a nonempty registry with an encodable event appends it
to every queue. -/
theorem broadcast_nonempty (m : SSEManager) (ts et msg : String) (bid : Option Int)
    (bd : Option (List (String × PyVal))) (ev : SSEEvent)
    (hne : ¬ m.clients = []) (hmk : mkEnvelope ts et msg bid bd = .ok ev) :
    m.broadcast ts et msg bid bd
      = .ok ({ m with clients := m.clients.map fun c => (c.1, c.2 ++ [ev]) }, some ev) := by
  unfold SSEManager.broadcast
  rw [if_neg hne, hmk]

/-- Effect of one operation on a channel it does not deregister: the
channel stays registered and its queue gains exactly the events the
operation constructs. -/
theorem step_registered (m : SSEManager) (q : Nat) (op : Op)
    (hq : q ∈ ids m) (hop : op ≠ Op.disconnect q)
    (hgood : ∀ a, op = Op.broadcast a → goodArgs a = true) :
    q ∈ ids (step m op) ∧ getQueue (step m op) q = getQueue m q ++ envelopesOf [op] := by
  have hfs : (m.clients.find? (fun c => c.1 == q)).isSome := (mem_ids_iff_find? m q).mp hq
  cases op with
  | connect =>
      have hfind : (m.connect.1.clients.find? (fun c => c.1 == q))
          = m.clients.find? (fun c => c.1 == q) := by
        simp only [SSEManager.connect]
        exact find?_append_of_isSome _ _ _ hfs
      constructor
      · rw [step, ids_connect]
        exact List.mem_append_left _ hq
      · unfold step getQueue
        rw [hfind]
        simp [envelopesOf]
  | disconnect q2 =>
      have hne : q ≠ q2 := fun he => hop (by rw [he])
      have hfind : ((m.disconnect q2).clients.find? (fun c => c.1 == q))
          = m.clients.find? (fun c => c.1 == q) := by
        simp only [SSEManager.disconnect]
        exact find?_eraseClient_ne m.clients q q2 hne
      constructor
      · rw [mem_ids_iff_find?]
        show ((m.disconnect q2).clients.find? (fun c => c.1 == q)).isSome
        rw [hfind]
        exact hfs
      · unfold step getQueue
        rw [hfind]
        simp [envelopesOf]
  | broadcast a =>
      obtain ⟨ev, hmk⟩ := mkEnvelope_ok_of_goodArgs a (hgood a rfl)
      have hne : ¬ m.clients = [] := by
        intro hc
        rw [ids, hc] at hq
        simp at hq
      have hb := broadcast_nonempty m a.ts a.event_type a.message a.book_id a.book_data ev hne hmk
      have hstep : step m (Op.broadcast a)
          = { m with clients := m.clients.map fun c => (c.1, c.2 ++ [ev]) } := by
        simp only [step, hb]
      constructor
      · rw [hstep, ids_appendEvent]
        exact hq
      · rw [hstep]
        obtain ⟨c, hc⟩ := Option.isSome_iff_exists.mp hfs
        unfold getQueue
        rw [find?_map_appendEvent, hc]
        simp [envelopesOf, hmk, Except.toOption]

/-
The claims.
-/

/-- C1: every publish that happens strictly after a channel's
registration and strictly before its deregistration places its encoded
event on that channel's queue, and non-overlapping publishes land in
publish order: over any operation sequence that never deregisters the
channel (and whose snapshots json.dumps can encode), the channel stays
registered and its queue ends as its previous contents followed by the
trace's broadcast events, in trace order. -/
theorem c1_no_loss_in_publish_order (m : SSEManager) (tr : List Op) (q : Nat)
    (hq : q ∈ ids m) (hnd : Op.disconnect q ∉ tr) (hgood : goodTrace tr = true) :
    q ∈ ids (runTrace m tr)
      ∧ getQueue (runTrace m tr) q = getQueue m q ++ envelopesOf tr := by
  induction tr generalizing m with
  | nil => exact ⟨hq, by simp [runTrace, envelopesOf]⟩
  | cons op tl ih =>
      simp only [goodTrace, List.all_cons, Bool.and_eq_true] at hgood
      have hop : op ≠ Op.disconnect q := fun he => hnd (by simp [he])
      have hg1 : ∀ a, op = Op.broadcast a → goodArgs a = true := by
        intro a ha
        rw [ha] at hgood
        exact hgood.1
      obtain ⟨hq2, hstep⟩ := step_registered m q op hq hop hg1
      have hnd2 : Op.disconnect q ∉ tl := fun h => hnd (List.mem_cons_of_mem _ h)
      obtain ⟨hmem, heq⟩ := ih (step m op) hq2 hnd2 hgood.2
      have henv : envelopesOf (op :: tl) = envelopesOf [op] ++ envelopesOf tl := by
        unfold envelopesOf
        rw [show op :: tl = [op] ++ tl from rfl, List.filterMap_append]
      constructor
      · show q ∈ ids (runTrace (step m op) tl)
        exact hmem
      · show getQueue (runTrace (step m op) tl) q = _
        rw [heq, hstep, henv, List.append_assoc]

/-- Witness for C1: a channel registered from the start of a trace of
two broadcasts (with another registration in between) receives both
events, in order. -/
theorem c1_no_loss_witness :
    0 ∈ ids (runTrace initManager.connect.1
        [Op.broadcast ⟨"t1", "bookCreated", "created", some 7, some [("title", PyVal.pstr "Foo")]⟩,
         Op.connect,
         Op.broadcast ⟨"t2", "bookDeleted", "deleted", some 7, none⟩])
    ∧ getQueue (runTrace initManager.connect.1
        [Op.broadcast ⟨"t1", "bookCreated", "created", some 7, some [("title", PyVal.pstr "Foo")]⟩,
         Op.connect,
         Op.broadcast ⟨"t2", "bookDeleted", "deleted", some 7, none⟩]) 0
      = getQueue initManager.connect.1 0 ++ envelopesOf
        [Op.broadcast ⟨"t1", "bookCreated", "created", some 7, some [("title", PyVal.pstr "Foo")]⟩,
         Op.connect,
         Op.broadcast ⟨"t2", "bookDeleted", "deleted", some 7, none⟩] :=
  c1_no_loss_in_publish_order initManager.connect.1
    [Op.broadcast ⟨"t1", "bookCreated", "created", some 7, some [("title", PyVal.pstr "Foo")]⟩,
     Op.connect,
     Op.broadcast ⟨"t2", "bookDeleted", "deleted", some 7, none⟩] 0
    (by decide) (by decide) (by decide)

/-- C2 counterexample: the initial connection event's JSON body does not
bind book_id and book_data to null; those keys are absent from the
document altogether (its keys are timestamp, type, message). -/
theorem c2_initial_event_keys_absent :
    ¬ (jlookup (initialEvent "2025-01-14T00:00:00").data "book_id" = some JVal.jnull
       ∧ jlookup (initialEvent "2025-01-14T00:00:00").data "book_data" = some JVal.jnull) := by
  decide

/-- C2 (amended): a new streaming connection with no other activity
emits exactly one item before blocking for further events: the synthetic
event whose JSON body has type "connection" and contains neither a
book_id key nor a book_data key. -/
theorem c2_connection_handshake (ts : String) :
    sessionEmits ts [] = [initialEvent ts]
    ∧ (initialEvent ts).event = "bookOperation"
    ∧ jlookup (initialEvent ts).data "type" = some (JVal.jstr "connection")
    ∧ jlookup (initialEvent ts).data "book_id" = none
    ∧ jlookup (initialEvent ts).data "book_data" = none := by
  exact ⟨rfl, rfl, rfl, rfl, rfl⟩

/-- C3: in each of the five controller operations, a broadcast happens
only on the success path (every raising outcome has a broadcast-free
action trace), and in the three operations that change storage every
broadcast in the trace is preceded by the commit. -/
theorem c3_publish_after_commit (o : DbOracle) (db : List Book) (b : BookCreate)
    (bid : Int) (skip limit : Nat) :
    ((exceptOk (create_book o db b).1 || noPublish (create_book o db b).2) = true
      ∧ publishesAfterCommit false (create_book o db b).2 = true)
    ∧ ((exceptOk (get_books o db skip limit).1
          || noPublish (get_books o db skip limit).2) = true)
    ∧ ((exceptOk (get_book o db bid).1 || noPublish (get_book o db bid).2) = true)
    ∧ ((exceptOk (update_book o db bid b).1 || noPublish (update_book o db bid b).2) = true
      ∧ publishesAfterCommit false (update_book o db bid b).2 = true)
    ∧ ((exceptOk (delete_book o db bid).1 || noPublish (delete_book o db bid).2) = true
      ∧ publishesAfterCommit false (delete_book o db bid).2 = true) := by
  refine ⟨⟨?_, ?_⟩, ?_, ?_, ⟨?_, ?_⟩, ⟨?_, ?_⟩⟩ <;>
    first
    | (unfold create_book
       (repeat' split) <;>
         simp [exceptOk, noPublish, isPublish, publishesAfterCommit])
    | (unfold get_books
       (repeat' split) <;>
         simp [exceptOk, noPublish, isPublish, publishesAfterCommit])
    | (unfold get_book
       (repeat' split) <;>
         simp [exceptOk, noPublish, isPublish, publishesAfterCommit])
    | (unfold update_book
       (repeat' split) <;>
         simp [exceptOk, noPublish, isPublish, publishesAfterCommit])
    | (unfold delete_book
       (repeat' split) <;>
         simp [exceptOk, noPublish, isPublish, publishesAfterCommit])

/-- C4: broadcast on an empty registry returns immediately with the
state untouched and no envelope constructed. -/
theorem c4_broadcast_empty_noop (m : SSEManager) (ts et msg : String)
    (bid : Option Int) (bd : Option (List (String × PyVal)))
    (h : m.clients = []) :
    m.broadcast ts et msg bid bd = .ok (m, none) := by
  unfold SSEManager.broadcast
  rw [if_pos h]

/-- Witness for C4 at the initial manager state. -/
theorem c4_broadcast_empty_noop_witness :
    initManager.broadcast "t" "bookCreated" "created" none none
      = .ok (initManager, none) :=
  c4_broadcast_empty_noop initManager "t" "bookCreated" "created" none none rfl

/-- C8: with zero registered clients, broadcast returns before any
serialization or JSON encoding, so it never raises, even when the
snapshot holds a value json.dumps cannot encode; with a client
registered, the same snapshot makes it raise. -/
theorem c8_broadcast_empty_never_raises (k : Nat) (ts et msg : String)
    (bid : Option Int) (bd : Option (List (String × PyVal))) :
    SSEManager.broadcast ⟨[], k⟩ ts et msg bid bd = .ok (⟨[], k⟩, none)
    ∧ SSEManager.broadcast ⟨[(0, [])], 1⟩ ts "bookCreated" "created" none
        (some [("cover", PyVal.unsupported "bytes")])
      = .error "Object of type bytes is not JSON serializable" := by
  exact ⟨rfl, rfl⟩

/-- C9: a snapshot that is the empty dict serializes to None like an
absent snapshot, so broadcast produces the very same outcome for both. -/
theorem c9_empty_snapshot_like_none :
    serialize_book_data none = none
    ∧ serialize_book_data (some []) = none
    ∧ ∀ (m : SSEManager) (ts et msg : String) (bid : Option Int),
        m.broadcast ts et msg bid (some []) = m.broadcast ts et msg bid none := by
  exact ⟨rfl, rfl, fun m ts et msg bid => rfl⟩

/-- C6: serialization of a snapshot keeps every key, turns each date or
datetime value into its ISO-8601 string (1965-08-01 becomes the literal
"1965-08-01"), and passes every other scalar through unchanged. -/
theorem c6_snapshot_fidelity :
    (∀ bd : List (String × PyVal), bd ≠ [] →
        serialize_book_data (some bd)
          = some (bd.map fun kv => (kv.1, serializeVal kv.2)))
    ∧ (∀ y m d, serializeVal (PyVal.pdate y m d) = PyVal.pstr (date_isoformat y m d))
    ∧ (∀ y mo d hh mi ss, serializeVal (PyVal.pdatetime y mo d hh mi ss)
        = PyVal.pstr (datetime_isoformat y mo d hh mi ss))
    ∧ serializeVal (PyVal.pdate 1965 8 1) = PyVal.pstr "1965-08-01"
    ∧ (∀ s, serializeVal (PyVal.pstr s) = PyVal.pstr s)
    ∧ (∀ n, serializeVal (PyVal.pint n) = PyVal.pint n)
    ∧ (∀ bo, serializeVal (PyVal.pbool bo) = PyVal.pbool bo)
    ∧ serializeVal PyVal.pnone = PyVal.pnone := by
  refine ⟨?_, fun y m d => rfl, fun y mo d hh mi ss => rfl, rfl,
    fun s => rfl, fun n => rfl, fun bo => rfl, rfl⟩
  intro bd h
  cases bd with
  | nil => exact absurd rfl h
  | cons kv tl => rfl

/-- Witness for C6 on the spec's Dune record. -/
theorem c6_snapshot_fidelity_witness :
    serialize_book_data
        (some [("title", PyVal.pstr "Dune"), ("published_date", PyVal.pdate 1965 8 1)])
      = some [("title", PyVal.pstr "Dune"), ("published_date", PyVal.pstr "1965-08-01")] := by
  rw [c6_snapshot_fidelity.1
    [("title", PyVal.pstr "Dune"), ("published_date", PyVal.pdate 1965 8 1)] (by decide)]
  rfl

/-- C5: on every reachable registry state, deregistering a channel twice
leaves the same final state as deregistering it once, and deregistering
an absent channel is a no-op. -/
theorem c5_disconnect_idempotent (m : SSEManager) (q : Nat) (hre : Reachable m) :
    (m.disconnect q).disconnect q = m.disconnect q
    ∧ (q ∉ ids m → m.disconnect q = m) := by
  have hnd := (reachable_goodState m hre).1
  have h2 : q ∉ ((eraseClient m.clients q).map Prod.fst) :=
    not_mem_eraseClient_self m.clients q hnd
  constructor
  · show ({ clients := eraseClient (eraseClient m.clients q) q,
            nextId := m.nextId } : SSEManager) = _
    rw [eraseClient_of_not_mem _ _ h2]
    rfl
  · intro hq
    show ({ clients := eraseClient m.clients q, nextId := m.nextId } : SSEManager) = m
    rw [eraseClient_of_not_mem _ _ (by simpa [ids] using hq)]

/-- Witness for C5 on a reachable one-client state, for both the
registered channel and an unregistered one. -/
theorem c5_disconnect_idempotent_witness :
    ((initManager.connect.1.disconnect 0).disconnect 0 = initManager.connect.1.disconnect 0)
    ∧ (5 ∉ ids initManager.connect.1 → initManager.connect.1.disconnect 5 = initManager.connect.1) :=
  ⟨(c5_disconnect_idempotent initManager.connect.1 0
      (Reachable.step initManager Op.connect Reachable.init)).1,
   (c5_disconnect_idempotent initManager.connect.1 5
      (Reachable.step initManager Op.connect Reachable.init)).2⟩

/-- C7: whichever way the delivery loop exits, the finally block
deregisters the channel, so no exit path leaves it registered. -/
theorem c7_every_exit_deregisters (ts : String) (delivered : List SSEEvent)
    (cause : ExitCause) (m : SSEManager) (q : Nat) (hre : Reachable m) :
    q ∉ ids (event_generator_run ts delivered cause m q).2 := by
  have hnd := (reachable_goodState m hre).1
  show q ∉ ids (m.disconnect q)
  exact not_mem_eraseClient_self m.clients q hnd

/-- Witness for C7: on a reachable one-client state, each exit cause
leaves channel 0 unregistered. -/
theorem c7_every_exit_deregisters_witness :
    0 ∉ ids (event_generator_run "t" [] ExitCause.cancelled initManager.connect.1 0).2 :=
  c7_every_exit_deregisters "t" [] ExitCause.cancelled initManager.connect.1 0
    (Reachable.step initManager Op.connect Reachable.init)

/-- C10: on every reachable state, connect returns a fresh identity not
previously registered, whose queue is empty, and the new registry is the
old one with exactly that channel appended at its end. -/
theorem c10_connect_fresh_append (m : SSEManager) (hre : Reachable m) :
    m.connect.2 ∉ ids m
    ∧ m.connect.1.clients = m.clients ++ [(m.connect.2, [])] := by
  have hlt := (reachable_goodState m hre).2
  refine ⟨?_, rfl⟩
  intro hmem
  exact absurd (hlt _ hmem) (by simp [SSEManager.connect])

/-- Witness for C10 on a reachable one-client state. -/
theorem c10_connect_fresh_append_witness :
    initManager.connect.1.connect.2 ∉ ids initManager.connect.1
    ∧ initManager.connect.1.connect.1.clients
        = initManager.connect.1.clients ++ [(initManager.connect.1.connect.2, [])] :=
  c10_connect_fresh_append initManager.connect.1
    (Reachable.step initManager Op.connect Reachable.init)
